import Mathlib

/-!
Verification development for the authenticated resilient API client core of
the ticktick-mcp repository: the OAuth token lifecycle manager
(`TokenManager` in `src/auth.ts`), the HTTP request executor
(`TickTickClient.request` in `src/ticktick-client.ts`), and the single-flight
inbox resolver (`TickTickClient.getInboxProjectId`).  Source functions are
embedded shallowly: asynchronous calls become explicit parameters holding the
value each call would produce, and the secret store becomes an explicit
record threaded through the functions.
-/

namespace TickTickMCP

/-! ## JavaScript semantics helpers -/

/-- JavaScript truthiness of a nullable string (`!x` is true exactly when
`x` is `null`, `undefined` or the empty string). -/
def truthy : Option String → Bool
  | none => false
  | some s => s ≠ ""

/-- A JavaScript number that is either NaN or an integer. -/
inductive JsNum
  | nan
  | num (v : Int)
deriving DecidableEq, Repr

/-- Decimal value of a list of digit characters. -/
def digitsVal (l : List Char) : Nat :=
  l.foldl (fun a c => a * 10 + (c.toNat - 48)) 0

/-- ASCII whitespace, the trimmed fragment relevant here. -/
def isWS (c : Char) : Bool :=
  c = ' ' ∨ c = '\t' ∨ c = '\n' ∨ c = '\r'

/-- Strip leading and trailing whitespace from a character list. -/
def trimChars (l : List Char) : List Char :=
  ((l.dropWhile isWS).reverse.dropWhile isWS).reverse

/-- Fragment of the JavaScript `Number(string)` conversion sufficient for
this development: optional surrounding whitespace, an optional sign and
decimal integer digits; the empty string converts to 0; every other string
is treated as NaN.  Fractional, hexadecimal and exponent numerals are
outside the modelled fragment and also map to NaN here. -/
def jsNumber (s : String) : JsNum :=
  let t := trimChars s.data
  if t = [] then .num 0
  else
    let signAndDigits : Int × List Char :=
      match t with
      | '-' :: rest => (-1, rest)
      | '+' :: rest => (1, rest)
      | l => (1, l)
    if signAndDigits.2 ≠ [] ∧ signAndDigits.2.all Char.isDigit then
      .num (signAndDigits.1 * (digitsVal signAndDigits.2 : Int))
    else .nan

/-- JavaScript `a < b - m` where `b` may be NaN: every comparison against
NaN is false. -/
def jsLtSub (a : Int) (b : JsNum) (m : Int) : Bool :=
  match b with
  | .nan => false
  | .num v => a < v - m

/-! ## SecretStore state (keychain) -/

/-- The named secrets the core reads and writes, each `none` when absent
from the store. -/
structure Keychain where
  access_token : Option String
  refresh_token : Option String
  client_secret : Option String
  expires_at : Option String
deriving DecidableEq, Repr

/-! ## TokenManager (`src/auth.ts`) -/

/-- One field of the JSON value a token-refresh response may carry. -/
inductive JVal
  | str (s : String)
  | numb (n : Int)
  | other
deriving DecidableEq, Repr

/-- The fields of the parsed JSON body of a token-refresh response that the
schema inspects; `none` means the key is absent. -/
structure RawRefreshBody where
  access_token : Option JVal
  refresh_token : Option JVal
  expires_in : Option JVal
deriving DecidableEq, Repr

/-- The wire outcome of the token-endpoint exchange: `ok` is the HTTP
success flag of the response, `body` is `some` parsed JSON when
`response.json()` succeeds and `none` when it throws. -/
structure RefreshWire where
  ok : Bool
  body : Option RawRefreshBody
deriving DecidableEq, Repr

/-- A validated token-refresh payload. -/
structure RefreshData where
  access_token : String
  refresh_token : Option String
  expires_in : Int
deriving DecidableEq, Repr

/-- Shallow embedding of `TokenRefreshResponse.safeParse` from the zod
schema in `src/types.ts`:
`z.object({ access_token: z.string(), refresh_token: z.string().optional(),
expires_in: z.number() })`.  Validation succeeds exactly when
`access_token` is a present string, `expires_in` is a present number, and
`refresh_token`, if present, is a string; a non-strict `z.object` ignores
every other key, so only these three fields decide the outcome.  Numbers
are modelled as integers, the value domain the token endpoint uses
(`expires_in` in whole seconds). -/
def tokenRefreshSafeParse (r : RawRefreshBody) : Option RefreshData :=
  match r.access_token, r.expires_in with
  | some (.str a), some (.numb e) =>
    match r.refresh_token with
    | none => some ⟨a, none, e⟩
    | some (.str s) => some ⟨a, some s, e⟩
    | some _ => none
  | _, _ => none

/-- Result of one run of the token-refresh procedure: the thrown `AuthError`
message or the returned access token, the keychain afterwards, the list of
`keychain.set` writes performed in order, and how many HTTP exchanges with
the token endpoint took place. -/
structure RefreshOutcome where
  result : Except String String
  kc : Keychain
  writes : List (String × String)
  endpointCalls : Nat
deriving Repr

/-- Shallow embedding of `TokenManager.refreshAccessToken`.  `now` is
`Math.floor(Date.now() / 1000)` and `wire` the outcome the token endpoint
would deliver if contacted.  The `Except.error` constructor stands for a
thrown `AuthError`; no other error kind escapes this function. -/
def refreshAccessToken (kc : Keychain) (now : Int) (wire : RefreshWire) : RefreshOutcome :=
  if ¬ truthy kc.refresh_token ∨ ¬ truthy kc.client_secret then
    ⟨.error "Token expired and cannot refresh. Run `ticktick-mcp-auth` to re-authorize.",
      kc, [], 0⟩
  else if ¬ wire.ok then
    ⟨.error "Token refresh failed. Run `ticktick-mcp-auth` to re-authorize.", kc, [], 1⟩
  else
    match wire.body with
    | none =>
      ⟨.error "Token refresh returned malformed response. Run `ticktick-mcp-auth` to re-authorize.",
        kc, [], 1⟩
    | some raw =>
      match tokenRefreshSafeParse raw with
      | none =>
        ⟨.error "Token refresh returned invalid data. Run `ticktick-mcp-auth` to re-authorize.",
          kc, [], 1⟩
      | some d =>
        let writes :=
          [("access_token", d.access_token)]
            ++ (if truthy d.refresh_token then [("refresh_token", d.refresh_token.getD "")] else [])
            ++ [("expires_at", toString (now + d.expires_in))]
        let kc' : Keychain :=
          { kc with
            access_token := some d.access_token
            refresh_token := if truthy d.refresh_token then d.refresh_token else kc.refresh_token
            expires_at := some (toString (now + d.expires_in)) }
        ⟨.ok d.access_token, kc', writes, 1⟩

/-- Result of `getValidAccessToken`, extending `RefreshOutcome` with whether
the call delegated to the refresh procedure at all. -/
structure TokenOutcome where
  result : Except String String
  kc : Keychain
  writes : List (String × String)
  endpointCalls : Nat
  delegatedRefresh : Bool
deriving Repr

/-- Shallow embedding of `TokenManager.getValidAccessToken`. -/
def getValidAccessToken (kc : Keychain) (now : Int) (wire : RefreshWire) : TokenOutcome :=
  if ¬ truthy kc.access_token ∨ ¬ truthy kc.expires_at then
    ⟨.error "Not authenticated. Run `ticktick-mcp-auth` to set up.", kc, [], 0, false⟩
  else if jsLtSub now (jsNumber (kc.expires_at.getD "")) 60 then
    ⟨.ok (kc.access_token.getD ""), kc, [], 0, false⟩
  else
    let r := refreshAccessToken kc now wire
    ⟨r.result, r.kc, r.writes, r.endpointCalls, true⟩

/-! ## ApiClient (`src/ticktick-client.ts`) -/

/-- A resolved `fetch` response as `TickTickClient.request` consumes it:
the HTTP status, the text body, and the value of
`headers.get("Retry-After")` (`none` when the header is absent).  Rejected
promises (network errors, timeouts) are outside this model; they propagate
unchanged through `request` without touching any branch embedded here. -/
structure HttpResponse where
  status : Nat
  body : String
  retryAfter : Option String
deriving DecidableEq, Repr

/-- `Response.ok` of the fetch API: status in the range 200-299. -/
def respOk (r : HttpResponse) : Bool :=
  200 ≤ r.status ∧ r.status < 300

/-- The typed outcome of one logical `request` call, one constructor per
error class the client can throw plus success.  `apiError` carries the
`message` property of a thrown `TickTickApiError` (including the prefix its
constructor prepends); `rateLimitError` carries the `retryAfter` field of a
thrown `TickTickRateLimitError`; `authError` is an `AuthError` propagated
from the token manager. -/
inductive Outcome (V : Type)
  | ok (v : Option V)
  | authError (msg : String)
  | apiError (status : Nat) (msg : String)
  | rateLimitError (retryAfter : JsNum)
deriving DecidableEq, Repr

/-- Message of a `TickTickApiError`: its constructor wraps the argument as
`TickTick API error (status): message`. -/
def apiErrorMessage (status : Nat) (msg : String) : String :=
  "TickTick API error (" ++ toString status ++ "): " ++ msg

/-- What the response-classification part of `request` decides for one
attempt: either a terminal outcome, or the 401-first-attempt signal to
re-run the procedure with a forced refresh. -/
inductive AttemptStep (V : Type)
  | retry401
  | done (o : Outcome V)
deriving DecidableEq, Repr

/-- Shallow embedding of the response handling of `TickTickClient.request`
(lines 91-122) for one attempt.  `parse` stands for `JSON.parse`, returning
`none` when it would throw.  Body truncation uses characters where
JavaScript `slice` uses UTF-16 units; the two agree on the concrete strings
used in this development. -/
def classifyResponse (parse : String → Option V) (isRetry : Bool)
    (r : HttpResponse) : AttemptStep V :=
  if respOk r then
    if r.body = "" then .done (.ok none)
    else
      match parse r.body with
      | some v => .done (.ok (some v))
      | none =>
        let snippet := if r.body.length > 200 then r.body.take 200 ++ "..." else r.body
        .done (.apiError r.status
          (apiErrorMessage r.status ("Response is not valid JSON: " ++ snippet)))
  else if r.status = 401 ∧ ¬ isRetry then .retry401
  else if r.status = 401 ∧ isRetry then
    .done (.apiError 401 (apiErrorMessage 401
      "Authentication failed after token refresh. Run `ticktick-mcp-auth` to re-authorize."))
  else if r.status = 429 then
    .done (.rateLimitError (jsNumber (r.retryAfter.getD "60")))
  else .done (.apiError r.status (apiErrorMessage r.status r.body))

/-- The token manager as the client sees it: the value each of its two
methods would deliver, `Except.error` being a thrown `AuthError`. -/
structure TokenOracle where
  getValid : Except String String
  force : Except String String

/-- Which token-manager method an attempt invoked. -/
inductive TokenCall
  | getValid
  | force
deriving DecidableEq, Repr

/-- Trace of one logical `request` call: its terminal outcome, how many
HTTP exchanges it performed, and the token-manager calls it made in
order. -/
structure RequestResult (V : Type) where
  outcome : Outcome V
  httpCount : Nat
  tokenCalls : List TokenCall
deriving Repr

/-- `AttemptStep` with `isRetry = true` never yields the retry signal, so
the second attempt needs only its outcome. -/
def stepOutcome : AttemptStep V → Outcome V
  | .done o => o
  | .retry401 => .apiError 401 ""

/-- Shallow embedding of one logical `TickTickClient.request` call.  `r1`
is the response the first HTTP exchange would receive and `r2` the response
a retry exchange would receive.  The recursion of the source
(`this.request(method, path, body, true)`) is unrolled once, which is exact
because the retried call can never take the retry branch again
(`classifyResponse_retry_ne` below). -/
def request (tm : TokenOracle) (parse : String → Option V)
    (r1 r2 : HttpResponse) : RequestResult V :=
  match tm.getValid with
  | .error m => ⟨.authError m, 0, [.getValid]⟩
  | .ok _ =>
    match classifyResponse parse false r1 with
    | .done o => ⟨o, 1, [.getValid]⟩
    | .retry401 =>
      match tm.force with
      | .error m => ⟨.authError m, 1, [.getValid, .force]⟩
      | .ok _ => ⟨stepOutcome (classifyResponse parse true r2), 2, [.getValid, .force]⟩

/-! ## InboxResolver, sequential view

The implementation of `TickTickClient.getInboxProjectId` is absent from the
sources; only its unit tests (`tests/unit/inbox-discovery.test.ts`) are
present.  The two definitions below are therefore modelled from spec §4.3.
This first one is the sequential behaviour of a single call. -/

/-- The environment one `getInboxProjectId` call runs in: the in-memory
cell, the persisted `inbox_id` secret, the container identifier the probe
creation would report (`none` when creation fails or the response lacks a
usable identifier), and whether the cleanup and persistence attempts would
succeed. -/
structure InboxEnv where
  mem : Option String
  kcInbox : Option String
  probe : Option String
  cleanupOk : Bool
  persistOk : Bool
deriving DecidableEq, Repr

/-- Trace of one sequential `getInboxProjectId` call: its result, the
in-memory cell and persisted secret afterwards, how many sentinel tasks it
created, and whether it attempted cleanup and persistence. -/
structure InboxResult where
  result : Except String String
  mem : Option String
  kcInbox : Option String
  probesCreated : Nat
  cleanupAttempted : Bool
  persistAttempted : Bool
deriving Repr

/-- Modelled from the spec: `getInboxProjectId` with no concurrent callers,
following spec §4.3 steps 1-4 — memory tier, then persisted tier, then
probe; on successful discovery the cleanup attempt and the persistence
attempt each have their failure swallowed, and cleanup failure does not
skip persistence; the in-memory cell is populated whenever discovery
succeeds. -/
def getInboxProjectId (e : InboxEnv) : InboxResult :=
  match e.mem with
  | some v => ⟨.ok v, e.mem, e.kcInbox, 0, false, false⟩
  | none =>
    match e.kcInbox with
    | some v => ⟨.ok v, some v, e.kcInbox, 0, false, false⟩
    | none =>
      match e.probe with
      | none => ⟨.error "Could not discover inbox project id", none, none, 1, false, false⟩
      | some d =>
        ⟨.ok d, some d, if e.persistOk then some d else none, 1, true, true⟩

/-! ## InboxResolver, concurrent view

Modelled from the spec: cooperative single-threaded scheduling (spec §5)
where suspension points are exactly the asynchronous calls, and the
check-then-set of the pending-discovery marker is atomic (spec §5, §4.3
step 3-4).  Each caller is a small automaton; a scheduler interleaves the
atomic blocks between suspension points.  This model covers the
success-path scenario of spec §8 (probe succeeds, persistence succeeds):
`d` is the identifier the API assigns to the sentinel task. -/

/-- Program counter of one `getInboxProjectId` caller, one state per atomic
block between suspension points. -/
inductive CallerPC
  | start
  | kcRead
  | waiting
  | probeWait
  | cleanupWait
  | persistWait
  | done (r : String)
deriving DecidableEq, Repr

/-- Shared state: the in-memory cell, the persisted secret, the
pending-discovery marker, the number of sentinel creations issued so far,
and every caller. -/
structure Sys where
  mem : Option String
  kc : Option String
  pending : Bool
  probes : Nat
  callers : List CallerPC
deriving Repr

/-- When the discoverer resolves, every attached waiter receives the
discovered identifier. -/
def resolveWaiters (d : String) (cs : List CallerPC) : List CallerPC :=
  cs.map (fun c => if c = .waiting then .done d else c)

/-- One atomic block of caller `i`: check the memory tier (suspending into
the keychain read when empty); resume the keychain read and either take the
persisted value, attach to a pending discovery, or atomically become the
discoverer; the discoverer then traverses probe creation, cleanup and
persistence, finally publishing the identifier, releasing the marker and
resolving all waiters. -/
def step (d : String) (s : Sys) (i : Nat) : Sys :=
  match s.callers[i]? with
  | none => s
  | some pc =>
    match pc with
    | .start =>
      match s.mem with
      | some v => { s with callers := s.callers.set i (.done v) }
      | none => { s with callers := s.callers.set i .kcRead }
    | .kcRead =>
      match s.kc with
      | some v => { s with mem := some v, callers := s.callers.set i (.done v) }
      | none =>
        if s.pending then { s with callers := s.callers.set i .waiting }
        else { s with pending := true, probes := s.probes + 1,
                      callers := s.callers.set i .probeWait }
    | .probeWait => { s with callers := s.callers.set i .cleanupWait }
    | .cleanupWait => { s with callers := s.callers.set i .persistWait }
    | .persistWait =>
      { s with mem := some d, kc := some d, pending := false,
               callers := resolveWaiters d (s.callers.set i (.done d)) }
    | .waiting => s
    | .done _ => s

/-- Run a schedule: at each tick the named caller executes its next atomic
block (a name out of range or a caller with no enabled block is a no-op
tick). -/
def runSched (d : String) (s : Sys) (sched : List Nat) : Sys :=
  sched.foldl (step d) s

/-- Cold start: nothing cached in memory or in the store, no discovery
pending, `n` callers about to issue `getInboxProjectId`. -/
def initSys (n : Nat) : Sys :=
  ⟨none, none, false, 0, List.replicate n .start⟩

/-- Whether a caller has resolved. -/
def isDone : CallerPC → Bool
  | .done _ => true
  | _ => false

/-- Whether a caller currently owns the discovery: it has created the probe
task and not yet published the result. -/
def isDisc : CallerPC → Bool
  | .probeWait => true
  | .cleanupWait => true
  | .persistWait => true
  | _ => false

/-- Inductive invariant of the concurrent resolver: memory and persisted
tiers agree and only ever hold the discovered identifier; at most one
caller owns the discovery and the pending marker is set exactly while one
does; the memory tier stays empty while a discovery is in flight; the
number of sentinel creations equals the number of in-flight discoveries
plus one once the identifier is published; and a resolved caller always
received the discovered identifier, after publication. -/
def Inv (d : String) (s : Sys) : Prop :=
  s.mem = s.kc ∧
  (s.mem = none ∨ s.mem = some d) ∧
  s.callers.countP isDisc ≤ 1 ∧
  (s.pending = true ↔ s.callers.countP isDisc = 1) ∧
  (1 ≤ s.callers.countP isDisc → s.mem = none) ∧
  (s.probes = s.callers.countP isDisc + (if s.mem.isSome then 1 else 0)) ∧
  (∀ r : String, CallerPC.done r ∈ s.callers → r = d ∧ s.mem.isSome = true)

/-! ## URL construction of the convenience wrappers -/

/-- The characters `encodeURIComponent` leaves unescaped (ECMA-262
uriUnescaped): ASCII letters, decimal digits and the marks. -/
def uriUnescaped (c : Char) : Bool :=
  c.isAlpha || c.isDigit ||
    c ∈ ['-', '_', '.', '!', '~', '*', Char.ofNat 39, '(', ')']

/-- UTF-8 bytes (as natural numbers below 256) of one code point. -/
def utf8Bytes (c : Char) : List Nat :=
  let n := c.toNat
  if n < 0x80 then [n]
  else if n < 0x800 then [0xC0 + n / 64, 0x80 + n % 64]
  else if n < 0x10000 then
    [0xE0 + n / 4096, 0x80 + (n / 64) % 64, 0x80 + n % 64]
  else
    [0xF0 + n / 0x40000, 0x80 + (n / 4096) % 64, 0x80 + (n / 64) % 64, 0x80 + n % 64]

/-- The upper-case hexadecimal digit characters. -/
def hexDigits : List Char := "0123456789ABCDEF".data

/-- Upper-case hexadecimal digit of a value below 16. -/
def hexDigit (n : Nat) : Char := hexDigits.getD (n % 16) '0'

/-- Encoding of one character under `encodeURIComponent`: kept verbatim
when unescaped, otherwise each UTF-8 byte becomes a percent triplet. -/
def encChar (c : Char) : List Char :=
  if uriUnescaped c then [c]
  else (utf8Bytes c).flatMap (fun b => ['%', hexDigit (b / 16), hexDigit (b % 16)])

/-- `encodeURIComponent`. -/
def encodeURIComponent (s : String) : String :=
  ⟨s.data.flatMap encChar⟩

/-- Path built by `TickTickClient.getProjectData`. -/
def getProjectDataPath (projectId : String) : String :=
  "/project/" ++ encodeURIComponent projectId ++ "/data"

/-- Path built by `TickTickClient.getTask`. -/
def getTaskPath (projectId taskId : String) : String :=
  "/project/" ++ encodeURIComponent projectId ++ "/task/" ++ encodeURIComponent taskId

/-- Path built by `TickTickClient.updateTask`. -/
def updateTaskPath (taskId : String) : String :=
  "/task/" ++ encodeURIComponent taskId

/-- Path built by `TickTickClient.completeTask`. -/
def completeTaskPath (projectId taskId : String) : String :=
  "/project/" ++ encodeURIComponent projectId ++ "/task/" ++ encodeURIComponent taskId
    ++ "/complete"

/-- A character that could alter which endpoint a path addresses: the
segment separator or the query and fragment delimiters. -/
def notReserved (c : Char) : Bool :=
  !(c == '/' || c == '?' || c == '#')

/-! ## Concrete fixtures used to evaluate the models -/

/-- A token manager whose two methods both succeed. -/
def tmOk : TokenOracle := ⟨.ok "tokenA", .ok "tokenB"⟩

/-- A JSON parser oracle under which every body is unparseable. -/
def parseNone (_ : String) : Option Unit := none

/-- A 401 response. -/
def resp401 : HttpResponse := ⟨401, "Unauthorized", none⟩

/-- A 429 response whose Retry-After header is present but not numeric. -/
def resp429bad : HttpResponse := ⟨429, "Rate limited", some "abc"⟩

/-- A 2xx response with an empty body. -/
def respEmpty : HttpResponse := ⟨200, "", none⟩

/-- A keychain whose access token is the empty string while every field is
present and the expiry is far in the future. -/
def kcEmptyAccess : Keychain :=
  { access_token := some ""
    refresh_token := some "rt"
    client_secret := some "cs"
    expires_at := some "999999" }

/-- A fully populated keychain with a far-future expiry. -/
def kcFull : Keychain :=
  { access_token := some "storedTok"
    refresh_token := some "rt"
    client_secret := some "cs"
    expires_at := some "999999" }

/-- A keychain with no refresh token. -/
def kcNoRefresh : Keychain :=
  { access_token := some "storedTok"
    refresh_token := none
    client_secret := some "cs"
    expires_at := some "10" }

/-- A token-endpoint response whose body is not JSON. -/
def wireJsonFail : RefreshWire := ⟨true, none⟩

/-- A well-formed token-endpoint response body. -/
def rawGood : RawRefreshBody :=
  { access_token := some (.str "newTok")
    refresh_token := some (.str "newRT")
    expires_in := some (.numb 3600) }

/-- The validated payload of `rawGood`. -/
def rawGoodData : RefreshData :=
  { access_token := "newTok"
    refresh_token := some "newRT"
    expires_in := 3600 }

/-- A successful token-endpoint response. -/
def wireGood : RefreshWire := ⟨true, some rawGood⟩

/-! ## Lemmas about the request executor -/

/-- A 401 response is never in the 2xx success range. -/
theorem respOk_401 (r : HttpResponse) (h : r.status = 401) : respOk r = false := by
  simp [respOk, h]

/-- The first attempt takes the retry branch exactly when its response has
status 401. -/
theorem classifyResponse_first_retry_iff (parse : String → Option V) (r : HttpResponse) :
    classifyResponse parse false r = .retry401 ↔ r.status = 401 := by
  unfold classifyResponse
  by_cases hok : respOk r = true
  · have hne : r.status ≠ 401 := fun h => by rw [respOk_401 r h] at hok; cases hok
    simp only [hok, if_true, hne, iff_false]
    intro h
    split at h
    · cases h
    · split at h <;> cases h
  · simp only [hok, if_false, Bool.false_eq_true]
    by_cases h401 : r.status = 401 <;> simp [h401]
    split <;> (intro h; cases h)

/-- The retried attempt can never take the retry branch again. -/
theorem classifyResponse_retry_ne (parse : String → Option V) (r : HttpResponse) :
    classifyResponse parse true r ≠ .retry401 := by
  unfold classifyResponse
  split
  · split
    · intro h; cases h
    · split <;> (intro h; cases h)
  · split
    · simp_all
    · split
      · intro h; cases h
      · split <;> (intro h; cases h)

/-- C1: for every logical ApiClient call, the first HTTP attempt obtains
its bearer token via getValidAccessToken; if and only if that first
response has status 401, exactly one further attempt is made, preceded by
forceRefresh; and no call ever performs more than two HTTP exchanges. -/
theorem c1_request_retry_protocol (tm : TokenOracle) (parse : String → Option V)
    (r1 r2 : HttpResponse) (t t' : String)
    (hget : tm.getValid = .ok t) (hforce : tm.force = .ok t') :
    (request tm parse r1 r2).tokenCalls.head? = some .getValid ∧
    ((request tm parse r1 r2).httpCount = 2 ↔ r1.status = 401) ∧
    (r1.status = 401 →
      (request tm parse r1 r2).tokenCalls = [.getValid, .force] ∧
      (request tm parse r1 r2).httpCount = 2) ∧
    (r1.status ≠ 401 →
      (request tm parse r1 r2).tokenCalls = [.getValid] ∧
      (request tm parse r1 r2).httpCount = 1) ∧
    (∀ (tm2 : TokenOracle) (ra rb : HttpResponse),
      (request tm2 parse ra rb).httpCount ≤ 2) := by
  have hbound : ∀ (tm2 : TokenOracle) (ra rb : HttpResponse),
      (request tm2 parse ra rb).httpCount ≤ 2 := by
    intro tm2 ra rb
    unfold request
    split
    · simp
    · split
      · simp
      · split <;> simp
  refine ⟨?_, ?_, ?_, ?_, hbound⟩ <;>
    [skip; skip; skip; skip] <;>
  · unfold request
    rw [hget]
    by_cases h401 : r1.status = 401
    · rw [(classifyResponse_first_retry_iff parse r1).mpr h401, hforce]
      simp [h401]
    · have hnr : classifyResponse parse false r1 ≠ .retry401 := fun h =>
        h401 ((classifyResponse_first_retry_iff parse r1).mp h)
      rcases hc : classifyResponse parse false r1 with _ | o
      · exact absurd hc hnr
      · simp [h401]

end TickTickMCP

namespace TickTickMCP

/-- Witness for C1 at a concrete input: a 401 first response followed by an
empty-body 2xx retry. -/
theorem c1_request_retry_protocol_witness :
    (request tmOk parseNone resp401 respEmpty).tokenCalls.head? = some .getValid ∧
    ((request tmOk parseNone resp401 respEmpty).httpCount = 2 ↔ resp401.status = 401) ∧
    (resp401.status = 401 →
      (request tmOk parseNone resp401 respEmpty).tokenCalls = [.getValid, .force] ∧
      (request tmOk parseNone resp401 respEmpty).httpCount = 2) ∧
    (resp401.status ≠ 401 →
      (request tmOk parseNone resp401 respEmpty).tokenCalls = [.getValid] ∧
      (request tmOk parseNone resp401 respEmpty).httpCount = 1) ∧
    (∀ (tm2 : TokenOracle) (ra rb : HttpResponse),
      (request tm2 parseNone ra rb).httpCount ≤ 2) :=
  c1_request_retry_protocol tmOk parseNone resp401 respEmpty "tokenA" "tokenB" rfl rfl

/-- C3 as stated is false on the code: when both attempts return 401 the
client throws a TickTickApiError, not an error of kind AuthError. -/
theorem c3_counterexample :
    (request tmOk parseNone resp401 resp401).outcome =
      .apiError 401 (apiErrorMessage 401
        "Authentication failed after token refresh. Run `ticktick-mcp-auth` to re-authorize.") ∧
    ∀ m, (request tmOk parseNone resp401 resp401).outcome ≠ .authError m := by
  have hc : (request tmOk parseNone resp401 resp401).outcome =
      .apiError 401 (apiErrorMessage 401
        "Authentication failed after token refresh. Run `ticktick-mcp-auth` to re-authorize.") := rfl
  refine ⟨hc, fun m h => ?_⟩
  rw [hc] at h
  exact Outcome.noConfusion h

/-- C3 amended: on two consecutive 401 responses the call fails terminally
after exactly two HTTP exchanges with a TickTickApiError of status 401
whose message carries re-authorization guidance (the AuthError kind is not
used on this path). -/
theorem c3_amended_double401 (tm : TokenOracle) (parse : String → Option V)
    (r1 r2 : HttpResponse) (t t' : String)
    (hget : tm.getValid = .ok t) (hforce : tm.force = .ok t')
    (h1 : r1.status = 401) (h2 : r2.status = 401) :
    (request tm parse r1 r2).outcome =
      .apiError 401 (apiErrorMessage 401
        "Authentication failed after token refresh. Run `ticktick-mcp-auth` to re-authorize.") ∧
    (request tm parse r1 r2).httpCount = 2 := by
  have hcl : classifyResponse parse true r2 =
      .done (.apiError 401 (apiErrorMessage 401
        "Authentication failed after token refresh. Run `ticktick-mcp-auth` to re-authorize.")) := by
    simp [classifyResponse, respOk_401 r2 h2, h2]
  unfold request
  rw [hget, (classifyResponse_first_retry_iff parse r1).mpr h1, hforce, hcl]
  exact ⟨rfl, rfl⟩

/-- Witness for the amended C3 at a concrete input: two 401 responses. -/
theorem c3_amended_double401_witness :
    (request tmOk parseNone resp401 resp401).outcome =
      .apiError 401 (apiErrorMessage 401
        "Authentication failed after token refresh. Run `ticktick-mcp-auth` to re-authorize.") ∧
    (request tmOk parseNone resp401 resp401).httpCount = 2 :=
  c3_amended_double401 tmOk parseNone resp401 resp401 "tokenA" "tokenB" rfl rfl rfl rfl

end TickTickMCP

namespace TickTickMCP

/-- C5: for every 2xx response the logical call performs one HTTP exchange;
an empty body yields null; a non-empty body that parses yields the parsed
value; a non-empty body that fails to parse yields a TickTickApiError whose
message contains the body verbatim when its length is at most 200
characters and otherwise contains the first 200 characters of the body
followed by an ellipsis marker. -/
theorem c5_success_body_handling (tm : TokenOracle) (parse : String → Option V)
    (r1 r2 : HttpResponse) (t : String)
    (hget : tm.getValid = .ok t) (hok : respOk r1 = true) :
    (request tm parse r1 r2).httpCount = 1 ∧
    (r1.body = "" → (request tm parse r1 r2).outcome = .ok none) ∧
    (r1.body ≠ "" → ∀ v, parse r1.body = some v →
      (request tm parse r1 r2).outcome = .ok (some v)) ∧
    (r1.body ≠ "" → parse r1.body = none →
      ∃ msg, (request tm parse r1 r2).outcome = .apiError r1.status msg ∧
        (r1.body.length ≤ 200 → r1.body.data <:+: msg.data) ∧
        (200 < r1.body.length → (r1.body.take 200 ++ "...").data <:+: msg.data)) := by
  by_cases hb : r1.body = ""
  · have hcl : classifyResponse parse false r1 = .done (.ok none) := by
      simp [classifyResponse, hok, hb]
    unfold request
    rw [hget, hcl]
    exact ⟨rfl, fun _ => rfl, fun hne => absurd hb hne, fun hne => absurd hb hne⟩
  · rcases hp : parse r1.body with _ | v
    · have hcl : classifyResponse parse false r1 = .done (.apiError r1.status
          (apiErrorMessage r1.status ("Response is not valid JSON: " ++
            (if r1.body.length > 200 then r1.body.take 200 ++ "..." else r1.body)))) := by
        simp [classifyResponse, hok, hb, hp]
      unfold request
      rw [hget, hcl]
      refine ⟨rfl, fun h => absurd h hb, fun _ v hv => Option.noConfusion hv, ?_⟩
      intro _ _
      refine ⟨_, rfl, fun hlen => ?_, fun hlen => ?_⟩
      · have hsnip : (if r1.body.length > 200 then r1.body.take 200 ++ "..." else r1.body)
            = r1.body := by
          rw [if_neg]; omega
        rw [hsnip]
        exact ⟨("TickTick API error (" ++ toString r1.status ++
          "): " ++ "Response is not valid JSON: ").data, [],
          by simp [apiErrorMessage, String.data_append]⟩
      · have hsnip : (if r1.body.length > 200 then r1.body.take 200 ++ "..." else r1.body)
            = r1.body.take 200 ++ "..." := by
          rw [if_pos]; omega
        rw [hsnip]
        exact ⟨("TickTick API error (" ++ toString r1.status ++
          "): " ++ "Response is not valid JSON: ").data, [],
          by simp [apiErrorMessage, String.data_append]⟩
    · have hcl : classifyResponse parse false r1 = .done (.ok (some v)) := by
        simp [classifyResponse, hok, hb, hp]
      unfold request
      rw [hget, hcl]
      refine ⟨rfl, fun h => absurd h hb, fun _ w hw => ?_, fun _ hw => Option.noConfusion hw⟩
      cases hw
      rfl

/-- Witness for C5 at a concrete input: a 2xx response with an empty
body. -/
theorem c5_success_body_handling_witness :
    (request tmOk parseNone respEmpty respEmpty).httpCount = 1 ∧
    (respEmpty.body = "" → (request tmOk parseNone respEmpty respEmpty).outcome = .ok none) ∧
    (respEmpty.body ≠ "" → ∀ v, parseNone respEmpty.body = some v →
      (request tmOk parseNone respEmpty respEmpty).outcome = .ok (some v)) ∧
    (respEmpty.body ≠ "" → parseNone respEmpty.body = none →
      ∃ msg, (request tmOk parseNone respEmpty respEmpty).outcome =
          .apiError respEmpty.status msg ∧
        (respEmpty.body.length ≤ 200 → respEmpty.body.data <:+: msg.data) ∧
        (200 < respEmpty.body.length →
          (respEmpty.body.take 200 ++ "...").data <:+: msg.data)) :=
  c5_success_body_handling tmOk parseNone respEmpty respEmpty "tokenA" rfl rfl

end TickTickMCP

namespace TickTickMCP

/-- C6 as stated is false on the code: with a present but non-numeric
Retry-After header the thrown TickTickRateLimitError carries
retryAfter = NaN (the result of Number on the header), not 60. -/
theorem c6_counterexample :
    (request tmOk parseNone resp429bad respEmpty).outcome = .rateLimitError .nan ∧
    (request tmOk parseNone resp429bad respEmpty).outcome ≠ .rateLimitError (.num 60) := by
  have hc : (request tmOk parseNone resp429bad respEmpty).outcome = .rateLimitError .nan := rfl
  refine ⟨hc, fun h => ?_⟩
  rw [hc] at h
  cases h

/-- C6 amended: a 429 first response terminates the call after exactly one
HTTP exchange (no internal sleep-and-retry) with a TickTickRateLimitError
whose retryAfter is Number applied to the Retry-After header value when the
header is present — NaN when that value is not numeric — and 60 when the
header is absent. -/
theorem c6_amended_rate_limit (tm : TokenOracle) (parse : String → Option V)
    (r1 r2 : HttpResponse) (t : String)
    (hget : tm.getValid = .ok t) (h429 : r1.status = 429) :
    (request tm parse r1 r2).outcome = .rateLimitError (jsNumber (r1.retryAfter.getD "60")) ∧
    (request tm parse r1 r2).httpCount = 1 ∧
    (r1.retryAfter = none → (request tm parse r1 r2).outcome = .rateLimitError (.num 0x3C)) ∧
    (∀ s, r1.retryAfter = some s →
      (request tm parse r1 r2).outcome = .rateLimitError (jsNumber s)) := by
  have hok : respOk r1 = false := by simp [respOk, h429]
  have hcl : classifyResponse parse false r1 =
      .done (.rateLimitError (jsNumber (r1.retryAfter.getD "60"))) := by
    simp [classifyResponse, hok, h429]
  unfold request
  rw [hget, hcl]
  refine ⟨rfl, rfl, fun h => ?_, fun s h => by rw [h]; rfl⟩
  rw [h]
  rfl

/-- Witness for the amended C6 at a concrete input: a 429 response with a
non-numeric Retry-After header. -/
theorem c6_amended_rate_limit_witness :
    (request tmOk parseNone resp429bad respEmpty).outcome =
      .rateLimitError (jsNumber (resp429bad.retryAfter.getD "60")) ∧
    (request tmOk parseNone resp429bad respEmpty).httpCount = 1 ∧
    (resp429bad.retryAfter = none →
      (request tmOk parseNone resp429bad respEmpty).outcome = .rateLimitError (.num 0x3C)) ∧
    (∀ s, resp429bad.retryAfter = some s →
      (request tmOk parseNone resp429bad respEmpty).outcome = .rateLimitError (jsNumber s)) :=
  c6_amended_rate_limit tmOk parseNone resp429bad respEmpty "tokenA" rfl rfl

end TickTickMCP

namespace TickTickMCP

/-- Validation of the refresh body fails whenever access_token is not a
string field or expires_in is not a numeric field. -/
theorem tokenRefreshSafeParse_eq_none (raw : RawRefreshBody)
    (h : (∀ s, raw.access_token ≠ some (.str s)) ∨
      (∀ n, raw.expires_in ≠ some (.numb n))) :
    tokenRefreshSafeParse raw = none := by
  rcases raw with ⟨a, r, e⟩
  rcases h with h | h
  · rcases a with _ | a
    · rfl
    · rcases a with s | n | _
      · exact absurd rfl (h s)
      · rfl
      · rfl
  · rcases a with _ | a
    · rfl
    · rcases a with s | n | _
      · rcases e with _ | e
        · rfl
        · rcases e with s' | n' | _
          · rfl
          · exact absurd rfl (h n')
          · rfl
      · rfl
      · rfl

/-- C2: every failing execution of the refresh procedure — refresh_token or
client_secret absent, a non-success HTTP status, a body that is not JSON,
or a parsed body missing a string access_token or missing or non-numeric
expires_in — throws AuthError, performs zero SecretStore writes and leaves
the stored credentials unchanged. -/
theorem c2_refresh_failure_no_writes (kc : Keychain) (now : Int) (wire : RefreshWire)
    (h : kc.refresh_token = none ∨ kc.client_secret = none ∨ wire.ok = false ∨
      wire.body = none ∨
      (∃ raw, wire.body = some raw ∧
        ((∀ s, raw.access_token ≠ some (.str s)) ∨
          (∀ n, raw.expires_in ≠ some (.numb n))))) :
    (∃ m, (refreshAccessToken kc now wire).result = .error m) ∧
    (refreshAccessToken kc now wire).writes = [] ∧
    (refreshAccessToken kc now wire).kc = kc := by
  by_cases hcred : ¬ truthy kc.refresh_token ∨ ¬ truthy kc.client_secret
  · have hres : refreshAccessToken kc now wire =
        ⟨.error "Token expired and cannot refresh. Run `ticktick-mcp-auth` to re-authorize.",
          kc, [], 0⟩ := by
      unfold refreshAccessToken
      rw [if_pos hcred]
    rw [hres]
    exact ⟨⟨_, rfl⟩, rfl, rfl⟩
  · simp only [not_or, not_not] at hcred
    obtain ⟨h1, h2⟩ := hcred
    by_cases hok : wire.ok = true
    · cases hbody : wire.body with
      | none =>
        have hres : refreshAccessToken kc now wire =
            ⟨.error
              "Token refresh returned malformed response. Run `ticktick-mcp-auth` to re-authorize.",
              kc, [], 1⟩ := by
          simp [refreshAccessToken, h1, h2, hok, hbody]
        rw [hres]
        exact ⟨⟨_, rfl⟩, rfl, rfl⟩
      | some raw =>
        cases hparse : tokenRefreshSafeParse raw with
        | none =>
          have hres : refreshAccessToken kc now wire =
              ⟨.error
                "Token refresh returned invalid data. Run `ticktick-mcp-auth` to re-authorize.",
                kc, [], 1⟩ := by
            simp [refreshAccessToken, h1, h2, hok, hbody, hparse]
          rw [hres]
          exact ⟨⟨_, rfl⟩, rfl, rfl⟩
        | some d =>
          exfalso
          rcases h with h | h | h | h | ⟨raw', hb, hraw⟩
          · rw [h] at h1
            simp [truthy] at h1
          · rw [h] at h2
            simp [truthy] at h2
          · rw [h] at hok
            cases hok
          · rw [h] at hbody
            cases hbody
          · rw [hb] at hbody
            injection hbody with hr
            rw [← hr, tokenRefreshSafeParse_eq_none raw' hraw] at hparse
            cases hparse
    · simp only [Bool.not_eq_true] at hok
      have hres : refreshAccessToken kc now wire =
          ⟨.error "Token refresh failed. Run `ticktick-mcp-auth` to re-authorize.",
            kc, [], 1⟩ := by
        simp [refreshAccessToken, h1, h2, hok]
      rw [hres]
      exact ⟨⟨_, rfl⟩, rfl, rfl⟩

/-- Witness for C2 at a concrete input: a keychain with no refresh
token. -/
theorem c2_refresh_failure_no_writes_witness :
    (∃ m, (refreshAccessToken kcNoRefresh 0 wireGood).result = .error m) ∧
    (refreshAccessToken kcNoRefresh 0 wireGood).writes = [] ∧
    (refreshAccessToken kcNoRefresh 0 wireGood).kc = kcNoRefresh :=
  c2_refresh_failure_no_writes kcNoRefresh 0 wireGood (Or.inl rfl)

end TickTickMCP

namespace TickTickMCP

/-- C4 as stated is false on the code: with access_token present but equal
to the empty string and expires_at present and far in the future, the
claimed second branch (both present and now below the margin, so the stored
token is returned) does not occur — the code tests JavaScript falsiness,
not absence, and throws AuthError instead of returning the stored empty
token. -/
theorem c4_counterexample :
    kcEmptyAccess.access_token.isSome = true ∧
    kcEmptyAccess.expires_at.isSome = true ∧
    jsLtSub 0 (jsNumber (kcEmptyAccess.expires_at.getD "")) 60 = true ∧
    (getValidAccessToken kcEmptyAccess 0 wireGood).result =
      .error "Not authenticated. Run `ticktick-mcp-auth` to set up." ∧
    (getValidAccessToken kcEmptyAccess 0 wireGood).result ≠
      .ok (kcEmptyAccess.access_token.getD "") := by
  have hres : (getValidAccessToken kcEmptyAccess 0 wireGood).result =
      .error "Not authenticated. Run `ticktick-mcp-auth` to set up." := rfl
  refine ⟨rfl, rfl, rfl, hres, fun h => ?_⟩
  rw [hres] at h
  cases h

/-- C4 amended: getValidAccessToken is a three-way case split on
JavaScript falsiness rather than absence — if access_token or expires_at is
absent or empty it throws AuthError with no refresh delegation and no
endpoint call; if both are non-empty and now is below Number(expires_at)
minus the 60 second margin it returns the stored token with no endpoint
call; otherwise it delegates to the refresh procedure exactly once and
returns its result, the procedure reaching the refresh endpoint exactly
when refresh_token and client_secret are present and non-empty. -/
theorem c4_amended_three_way (kc : Keychain) (now : Int) (wire : RefreshWire) :
    (¬ truthy kc.access_token ∨ ¬ truthy kc.expires_at →
      (getValidAccessToken kc now wire).result =
        .error "Not authenticated. Run `ticktick-mcp-auth` to set up." ∧
      (getValidAccessToken kc now wire).endpointCalls = 0 ∧
      (getValidAccessToken kc now wire).delegatedRefresh = false ∧
      (getValidAccessToken kc now wire).writes = []) ∧
    (truthy kc.access_token = true → truthy kc.expires_at = true →
      jsLtSub now (jsNumber (kc.expires_at.getD "")) 60 = true →
      (getValidAccessToken kc now wire).result = .ok (kc.access_token.getD "") ∧
      (getValidAccessToken kc now wire).endpointCalls = 0 ∧
      (getValidAccessToken kc now wire).delegatedRefresh = false ∧
      (getValidAccessToken kc now wire).writes = []) ∧
    (truthy kc.access_token = true → truthy kc.expires_at = true →
      jsLtSub now (jsNumber (kc.expires_at.getD "")) 60 = false →
      (getValidAccessToken kc now wire).result = (refreshAccessToken kc now wire).result ∧
      (getValidAccessToken kc now wire).delegatedRefresh = true ∧
      (getValidAccessToken kc now wire).endpointCalls =
        (refreshAccessToken kc now wire).endpointCalls ∧
      (refreshAccessToken kc now wire).endpointCalls =
        (if truthy kc.refresh_token ∧ truthy kc.client_secret then 1 else 0)) := by
  refine ⟨?_, ?_, ?_⟩
  · intro hmiss
    unfold getValidAccessToken
    rw [if_pos hmiss]
    exact ⟨rfl, rfl, rfl, rfl⟩
  · intro ha he hlt
    have hcond : ¬ (¬ truthy kc.access_token ∨ ¬ truthy kc.expires_at) := by
      simp [ha, he]
    unfold getValidAccessToken
    rw [if_neg hcond, if_pos hlt]
    exact ⟨rfl, rfl, rfl, rfl⟩
  · intro ha he hlt
    have hcond : ¬ (¬ truthy kc.access_token ∨ ¬ truthy kc.expires_at) := by
      simp [ha, he]
    have hlt' : ¬ (jsLtSub now (jsNumber (kc.expires_at.getD "")) 60 = true) := by
      simp [hlt]
    refine ⟨?_, ?_, ?_, ?_⟩
    · unfold getValidAccessToken
      rw [if_neg hcond, if_neg hlt']
    · unfold getValidAccessToken
      rw [if_neg hcond, if_neg hlt']
    · unfold getValidAccessToken
      rw [if_neg hcond, if_neg hlt']
    · by_cases hc : truthy kc.refresh_token ∧ truthy kc.client_secret
      · obtain ⟨h1, h2⟩ := hc
        have hcr : ¬ (¬ truthy kc.refresh_token ∨ ¬ truthy kc.client_secret) := by
          simp [h1, h2]
        rw [if_pos]
        · unfold refreshAccessToken
          rw [if_neg hcr]
          by_cases hok : wire.ok = true
          · cases hbody : wire.body with
            | none => simp [hok, hbody]
            | some raw =>
              cases hparse : tokenRefreshSafeParse raw with
              | none => simp [hok, hbody, hparse]
              | some dd => simp [hok, hbody, hparse]
          · simp only [Bool.not_eq_true] at hok
            simp [hok]
        · exact ⟨h1, h2⟩
      · rw [if_neg hc]
        have hcr : ¬ truthy kc.refresh_token ∨ ¬ truthy kc.client_secret := by
          rcases Decidable.not_and_iff_or_not.mp hc with h | h
          · exact Or.inl h
          · exact Or.inr h
        unfold refreshAccessToken
        rw [if_pos hcr]

/-- Witness for the amended C4 at a concrete input: a fully populated
keychain with far-future expiry returns the stored token with zero endpoint
calls. -/
theorem c4_amended_three_way_witness :
    (getValidAccessToken kcFull 0 wireGood).result = .ok (kcFull.access_token.getD "") ∧
    (getValidAccessToken kcFull 0 wireGood).endpointCalls = 0 ∧
    (getValidAccessToken kcFull 0 wireGood).delegatedRefresh = false ∧
    (getValidAccessToken kcFull 0 wireGood).writes = [] :=
  (c4_amended_three_way kcFull 0 wireGood).2.1 rfl rfl rfl

end TickTickMCP

namespace TickTickMCP

/-- C8: every successful refresh — validated body with a string
access_token and numeric expires_in — persists access_token, persists
expires_at as the string-encoded integer now plus expires_in, writes
refresh_token only when the response included one, writes nothing but those
three keys, and returns the new access token. -/
theorem c8_refresh_success_persistence (kc : Keychain) (now : Int) (wire : RefreshWire)
    (raw : RawRefreshBody) (d : RefreshData)
    (hrt : truthy kc.refresh_token = true) (hcs : truthy kc.client_secret = true)
    (hok : wire.ok = true) (hbody : wire.body = some raw)
    (hparse : tokenRefreshSafeParse raw = some d) :
    (refreshAccessToken kc now wire).result = .ok d.access_token ∧
    ("access_token", d.access_token) ∈ (refreshAccessToken kc now wire).writes ∧
    ("expires_at", toString (now + d.expires_in)) ∈ (refreshAccessToken kc now wire).writes ∧
    (∀ x, ("refresh_token", x) ∈ (refreshAccessToken kc now wire).writes →
      d.refresh_token = some x) ∧
    (∀ x, d.refresh_token = some x → x ≠ "" →
      ("refresh_token", x) ∈ (refreshAccessToken kc now wire).writes) ∧
    (∀ kv ∈ (refreshAccessToken kc now wire).writes,
      kv.1 = "access_token" ∨ kv.1 = "refresh_token" ∨ kv.1 = "expires_at") := by
  have hcr : ¬ (¬ truthy kc.refresh_token ∨ ¬ truthy kc.client_secret) := by
    simp [hrt, hcs]
  have hres : refreshAccessToken kc now wire =
      ⟨.ok d.access_token,
        { kc with
          access_token := some d.access_token
          refresh_token := if truthy d.refresh_token then d.refresh_token else kc.refresh_token
          expires_at := some (toString (now + d.expires_in)) },
        [("access_token", d.access_token)]
          ++ (if truthy d.refresh_token then [("refresh_token", d.refresh_token.getD "")] else [])
          ++ [("expires_at", toString (now + d.expires_in))],
        1⟩ := by
    unfold refreshAccessToken
    rw [if_neg hcr, hbody]
    simp [hok, hparse]
  rw [hres]
  refine ⟨rfl, ?_, ?_, ?_, ?_, ?_⟩
  · simp
  · simp
  · intro x hx
    simp only [List.mem_append, List.mem_singleton] at hx
    rcases hx with (hx | hx) | hx
    · simp at hx
    · by_cases ht : truthy d.refresh_token = true
      · rw [if_pos ht] at hx
        simp only [List.mem_singleton, Prod.mk.injEq] at hx
        obtain ⟨h1, h2⟩ := hx
        cases hd : d.refresh_token with
        | none => rw [hd] at ht; cases ht
        | some y =>
          rw [hd] at h2
          simp only [Option.getD_some] at h2
          rw [h2]
      · simp only [Bool.not_eq_true] at ht
        rw [ht] at hx
        simp at hx
    · simp at hx
  · intro x hd hne
    have ht : truthy d.refresh_token = true := by
      rw [hd]
      simp [truthy, hne]
    simp only [List.mem_append]
    left
    right
    rw [if_pos ht, hd]
    simp
  · intro kv hkv
    simp only [List.mem_append, List.mem_singleton] at hkv
    rcases hkv with (hkv | hkv) | hkv
    · rw [hkv]
      exact Or.inl rfl
    · by_cases ht : truthy d.refresh_token = true
      · rw [if_pos ht] at hkv
        simp only [List.mem_singleton] at hkv
        rw [hkv]
        exact Or.inr (Or.inl rfl)
      · simp only [Bool.not_eq_true] at ht
        rw [ht] at hkv
        simp at hkv
    · rw [hkv]
      exact Or.inr (Or.inr rfl)

/-- Witness for C8 at a concrete input: an expired keychain refreshed by a
well-formed endpoint response. -/
theorem c8_refresh_success_persistence_witness :
    (refreshAccessToken kcFull 0 wireGood).result = .ok rawGoodData.access_token ∧
    ("access_token", rawGoodData.access_token) ∈
      (refreshAccessToken kcFull 0 wireGood).writes ∧
    ("expires_at", toString ((0 : Int) + rawGoodData.expires_in)) ∈
      (refreshAccessToken kcFull 0 wireGood).writes ∧
    (∀ x, ("refresh_token", x) ∈ (refreshAccessToken kcFull 0 wireGood).writes →
      rawGoodData.refresh_token = some x) ∧
    (∀ x, rawGoodData.refresh_token = some x → x ≠ "" →
      ("refresh_token", x) ∈ (refreshAccessToken kcFull 0 wireGood).writes) ∧
    (∀ kv ∈ (refreshAccessToken kcFull 0 wireGood).writes,
      kv.1 = "access_token" ∨ kv.1 = "refresh_token" ∨ kv.1 = "expires_at") :=
  c8_refresh_success_persistence kcFull 0 wireGood rawGood rawGoodData
    rfl rfl rfl rfl rfl

end TickTickMCP

namespace TickTickMCP

/-- C9: whenever the probe succeeds in discovering an identifier, the call
returns that identifier and populates the in-memory cache for every
combination of cleanup and persistence outcomes — a cleanup failure or a
persistence failure is swallowed, and the persistence attempt is made even
when cleanup failed.  Spec-modelled: the implementation of
getInboxProjectId is absent from the sources. -/
theorem c9_inbox_swallows_cleanup_persist_failures (e : InboxEnv) (d : String)
    (hmem : e.mem = none) (hkc : e.kcInbox = none) (hprobe : e.probe = some d) :
    (getInboxProjectId e).result = .ok d ∧
    (getInboxProjectId e).mem = some d ∧
    (getInboxProjectId e).cleanupAttempted = true ∧
    (getInboxProjectId e).persistAttempted = true := by
  unfold getInboxProjectId
  rw [hmem, hkc, hprobe]
  exact ⟨rfl, rfl, rfl, rfl⟩

/-- Witness for C9 at a concrete input: a cold environment whose probe
succeeds while both cleanup and persistence fail. -/
theorem c9_inbox_swallows_cleanup_persist_failures_witness :
    (getInboxProjectId ⟨none, none, some "inbox555", false, false⟩).result = .ok "inbox555" ∧
    (getInboxProjectId ⟨none, none, some "inbox555", false, false⟩).mem = some "inbox555" ∧
    (getInboxProjectId ⟨none, none, some "inbox555", false, false⟩).cleanupAttempted = true ∧
    (getInboxProjectId ⟨none, none, some "inbox555", false, false⟩).persistAttempted = true :=
  c9_inbox_swallows_cleanup_persist_failures ⟨none, none, some "inbox555", false, false⟩
    "inbox555" rfl rfl rfl

end TickTickMCP

namespace TickTickMCP

/-- Replacing one element changes a countP tally by the difference between
the old and the new element. -/
theorem countP_set_add {α : Type} (p : α → Bool) (l : List α) (i : Nat) (a : α)
    (h : i < l.length) :
    (l.set i a).countP p + (if p l[i] then 1 else 0)
      = l.countP p + (if p a then 1 else 0) := by
  induction l generalizing i with
  | nil => simp at h
  | cons hd tl ih =>
    cases i with
    | zero =>
      simp only [List.set, List.countP_cons, List.getElem_cons_zero]
      omega
    | succ j =>
      have hj : j < tl.length := by simpa using h
      have := ih j hj
      simp only [List.set, List.countP_cons, List.getElem_cons_succ]
      omega

/-- A position holding an element satisfying the predicate makes the tally
positive. -/
theorem countP_pos_of_get {α : Type} (p : α → Bool) (l : List α) (i : Nat)
    (h : i < l.length) (hp : p l[i] = true) : 1 ≤ l.countP p := by
  have hm : l[i] ∈ l := List.getElem_mem h
  have := List.countP_pos_iff.mpr ⟨_, hm, hp⟩
  omega

/-- Resolving the waiters never changes how many callers own the
discovery. -/
theorem countP_resolveWaiters (d : String) (cs : List CallerPC) :
    (resolveWaiters d cs).countP isDisc = cs.countP isDisc := by
  unfold resolveWaiters
  rw [List.countP_map]
  apply List.countP_congr
  intro c _
  cases c <;> simp [isDisc]

/-- Membership in the waiter-resolved list comes from the published value
or from the original list. -/
theorem mem_resolveWaiters (d : String) (cs : List CallerPC) (x : CallerPC)
    (hx : x ∈ resolveWaiters d cs) : x = .done d ∨ x ∈ cs := by
  unfold resolveWaiters at hx
  obtain ⟨c, hc, hcx⟩ := List.mem_map.mp hx
  by_cases hw : c = CallerPC.waiting
  · rw [hw] at hcx
    simp at hcx
    exact Or.inl hcx.symm
  · rw [if_neg hw] at hcx
    exact Or.inr (hcx ▸ hc)

end TickTickMCP

namespace TickTickMCP

/-- One scheduler tick preserves the resolver invariant. -/
theorem inv_step (d : String) (s : Sys) (i : Nat) (h : Inv d s) : Inv d (step d s i) := by
  obtain ⟨hmk, hmd, hle, hpend, hdm, hprob, hdone⟩ := h
  cases hpc : s.callers[i]? with
  | none =>
    have hs : step d s i = s := by simp [step, hpc]
    rw [hs]
    exact ⟨hmk, hmd, hle, hpend, hdm, hprob, hdone⟩
  | some pc =>
    obtain ⟨hi, hget⟩ := List.getElem?_eq_some_iff.mp hpc
    cases pc with
    | start =>
      cases hm : s.mem with
      | some v =>
        have hv : v = d := by
          rcases hmd with h0 | h0
          · rw [hm] at h0; cases h0
          · rw [hm] at h0; injection h0
        have hs : step d s i = { s with callers := s.callers.set i (.done v) } := by
          simp [step, hpc, hm]
        have hcnt : (s.callers.set i (.done v)).countP isDisc = s.callers.countP isDisc := by
          have hc := countP_set_add isDisc s.callers i (.done v) hi
          rw [hget] at hc
          simpa [isDisc] using hc
        rw [hs]
        refine ⟨hmk, hmd, ?_, ?_, ?_, ?_, ?_⟩
        · show (s.callers.set i (.done v)).countP isDisc ≤ 1
          rw [hcnt]; exact hle
        · show s.pending = true ↔ (s.callers.set i (.done v)).countP isDisc = 1
          rw [hcnt]; exact hpend
        · show 1 ≤ (s.callers.set i (.done v)).countP isDisc → s.mem = none
          rw [hcnt]; exact hdm
        · show s.probes = (s.callers.set i (.done v)).countP isDisc + _
          rw [hcnt]; exact hprob
        · intro r hr
          rcases List.mem_or_eq_of_mem_set hr with hr | hr
          · exact hdone r hr
          · injection hr with hrv
            refine ⟨hrv.trans hv, ?_⟩
            rw [hm]; rfl
      | none =>
        have hs : step d s i = { s with callers := s.callers.set i .kcRead } := by
          simp [step, hpc, hm]
        have hcnt : (s.callers.set i .kcRead).countP isDisc = s.callers.countP isDisc := by
          have hc := countP_set_add isDisc s.callers i .kcRead hi
          rw [hget] at hc
          simpa [isDisc] using hc
        rw [hs]
        refine ⟨hmk, hmd, ?_, ?_, ?_, ?_, ?_⟩
        · show (s.callers.set i .kcRead).countP isDisc ≤ 1
          rw [hcnt]; exact hle
        · show s.pending = true ↔ (s.callers.set i .kcRead).countP isDisc = 1
          rw [hcnt]; exact hpend
        · show 1 ≤ (s.callers.set i .kcRead).countP isDisc → s.mem = none
          rw [hcnt]; exact hdm
        · show s.probes = (s.callers.set i .kcRead).countP isDisc + _
          rw [hcnt]; exact hprob
        · intro r hr
          rcases List.mem_or_eq_of_mem_set hr with hr | hr
          · exact hdone r hr
          · cases hr
    | kcRead =>
      cases hk : s.kc with
      | some v =>
        have hmv : s.mem = some v := by rw [hmk, hk]
        have hv : v = d := by
          rcases hmd with h0 | h0
          · rw [hmv] at h0; cases h0
          · rw [hmv] at h0; injection h0
        have hs : step d s i =
            { s with mem := some v, callers := s.callers.set i (.done v) } := by
          simp [step, hpc, hk]
        have hcnt : (s.callers.set i (.done v)).countP isDisc = s.callers.countP isDisc := by
          have hc := countP_set_add isDisc s.callers i (.done v) hi
          rw [hget] at hc
          simpa [isDisc] using hc
        rw [hs]
        refine ⟨?_, ?_, ?_, ?_, ?_, ?_, ?_⟩
        · show some v = s.kc
          rw [hk]
        · exact Or.inr (by rw [hv])
        · show (s.callers.set i (.done v)).countP isDisc ≤ 1
          rw [hcnt]; exact hle
        · show s.pending = true ↔ (s.callers.set i (.done v)).countP isDisc = 1
          rw [hcnt]; exact hpend
        · intro h1
          rw [hcnt] at h1
          have := hdm h1
          rw [hmv] at this
          cases this
        · show s.probes = (s.callers.set i (.done v)).countP isDisc + _
          rw [hcnt, hprob, hmv]
        · intro r hr
          rcases List.mem_or_eq_of_mem_set hr with hr | hr
          · exact ⟨(hdone r hr).1, rfl⟩
          · injection hr with hrv
            exact ⟨hrv.trans hv, rfl⟩
      | none =>
        have hmn : s.mem = none := by rw [hmk, hk]
        by_cases hp : s.pending = true
        · have hs : step d s i = { s with callers := s.callers.set i .waiting } := by
            simp [step, hpc, hk, hp]
          have hcnt : (s.callers.set i .waiting).countP isDisc = s.callers.countP isDisc := by
            have hc := countP_set_add isDisc s.callers i .waiting hi
            rw [hget] at hc
            simpa [isDisc] using hc
          rw [hs]
          refine ⟨hmk, hmd, ?_, ?_, ?_, ?_, ?_⟩
          · show (s.callers.set i .waiting).countP isDisc ≤ 1
            rw [hcnt]; exact hle
          · show s.pending = true ↔ (s.callers.set i .waiting).countP isDisc = 1
            rw [hcnt]; exact hpend
          · show 1 ≤ (s.callers.set i .waiting).countP isDisc → s.mem = none
            rw [hcnt]; exact hdm
          · show s.probes = (s.callers.set i .waiting).countP isDisc + _
            rw [hcnt]; exact hprob
          · intro r hr
            rcases List.mem_or_eq_of_mem_set hr with hr | hr
            · exact hdone r hr
            · cases hr
        · have hs : step d s i =
              { s with pending := true, probes := s.probes + 1,
                       callers := s.callers.set i .probeWait } := by
            simp [step, hpc, hk, hp]
          have hc0 : s.callers.countP isDisc = 0 := by
            have hne : ¬ s.callers.countP isDisc = 1 := fun hc => hp (hpend.mpr hc)
            omega
          have hcnt : (s.callers.set i .probeWait).countP isDisc
              = s.callers.countP isDisc + 1 := by
            have hc := countP_set_add isDisc s.callers i .probeWait hi
            rw [hget] at hc
            simp [isDisc] at hc
            omega
          rw [hs]
          refine ⟨hmk, hmd, ?_, ?_, ?_, ?_, ?_⟩
          · show (s.callers.set i .probeWait).countP isDisc ≤ 1
            rw [hcnt, hc0]
          · show true = true ↔ (s.callers.set i .probeWait).countP isDisc = 1
            rw [hcnt, hc0]
            simp
          · intro _
            exact hmn
          · show s.probes + 1 = (s.callers.set i .probeWait).countP isDisc + _
            rw [hcnt, hc0, hprob, hc0, hmn]
            rfl
          · intro r hr
            rcases List.mem_or_eq_of_mem_set hr with hr | hr
            · have hsm := (hdone r hr).2
              rw [hmn] at hsm
              cases hsm
            · cases hr
    | waiting =>
      have hs : step d s i = s := by simp [step, hpc]
      rw [hs]
      exact ⟨hmk, hmd, hle, hpend, hdm, hprob, hdone⟩
    | probeWait =>
      have hs : step d s i = { s with callers := s.callers.set i .cleanupWait } := by
        simp [step, hpc]
      have hcnt : (s.callers.set i .cleanupWait).countP isDisc = s.callers.countP isDisc := by
        have hc := countP_set_add isDisc s.callers i .cleanupWait hi
        rw [hget] at hc
        simpa [isDisc] using hc
      rw [hs]
      refine ⟨hmk, hmd, ?_, ?_, ?_, ?_, ?_⟩
      · show (s.callers.set i .cleanupWait).countP isDisc ≤ 1
        rw [hcnt]; exact hle
      · show s.pending = true ↔ (s.callers.set i .cleanupWait).countP isDisc = 1
        rw [hcnt]; exact hpend
      · show 1 ≤ (s.callers.set i .cleanupWait).countP isDisc → s.mem = none
        rw [hcnt]; exact hdm
      · show s.probes = (s.callers.set i .cleanupWait).countP isDisc + _
        rw [hcnt]; exact hprob
      · intro r hr
        rcases List.mem_or_eq_of_mem_set hr with hr | hr
        · exact hdone r hr
        · cases hr
    | cleanupWait =>
      have hs : step d s i = { s with callers := s.callers.set i .persistWait } := by
        simp [step, hpc]
      have hcnt : (s.callers.set i .persistWait).countP isDisc = s.callers.countP isDisc := by
        have hc := countP_set_add isDisc s.callers i .persistWait hi
        rw [hget] at hc
        simpa [isDisc] using hc
      rw [hs]
      refine ⟨hmk, hmd, ?_, ?_, ?_, ?_, ?_⟩
      · show (s.callers.set i .persistWait).countP isDisc ≤ 1
        rw [hcnt]; exact hle
      · show s.pending = true ↔ (s.callers.set i .persistWait).countP isDisc = 1
        rw [hcnt]; exact hpend
      · show 1 ≤ (s.callers.set i .persistWait).countP isDisc → s.mem = none
        rw [hcnt]; exact hdm
      · show s.probes = (s.callers.set i .persistWait).countP isDisc + _
        rw [hcnt]; exact hprob
      · intro r hr
        rcases List.mem_or_eq_of_mem_set hr with hr | hr
        · exact hdone r hr
        · cases hr
    | persistWait =>
      have hs : step d s i =
          { s with mem := some d, kc := some d, pending := false,
                   callers := resolveWaiters d (s.callers.set i (.done d)) } := by
        simp [step, hpc]
      have h1 : 1 ≤ s.callers.countP isDisc :=
        countP_pos_of_get isDisc s.callers i hi (by rw [hget]; rfl)
      have hc1 : s.callers.countP isDisc = 1 := by omega
      have hmn : s.mem = none := hdm h1
      have hcnt : (s.callers.set i (.done d)).countP isDisc = 0 := by
        have hc := countP_set_add isDisc s.callers i (.done d) hi
        rw [hget] at hc
        simp [isDisc] at hc
        omega
      have hcnt' : (resolveWaiters d (s.callers.set i (.done d))).countP isDisc = 0 := by
        rw [countP_resolveWaiters]
        exact hcnt
      rw [hs]
      refine ⟨rfl, Or.inr rfl, ?_, ?_, ?_, ?_, ?_⟩
      · show (resolveWaiters d (s.callers.set i (.done d))).countP isDisc ≤ 1
        rw [hcnt']
        omega
      · show false = true ↔ (resolveWaiters d (s.callers.set i (.done d))).countP isDisc = 1
        rw [hcnt']
        simp
      · intro hx
        rw [hcnt'] at hx
        omega
      · show s.probes = (resolveWaiters d (s.callers.set i (.done d))).countP isDisc + _
        rw [hcnt', hprob, hc1, hmn]
        rfl
      · intro r hr
        rcases mem_resolveWaiters d _ _ hr with hr | hr
        · injection hr with hrv
          exact ⟨hrv, rfl⟩
        · rcases List.mem_or_eq_of_mem_set hr with hr | hr
          · have hsm := (hdone r hr).2
            rw [hmn] at hsm
            cases hsm
          · injection hr with hrv
            exact ⟨hrv, rfl⟩
    | done r0 =>
      have hs : step d s i = s := by simp [step, hpc]
      rw [hs]
      exact ⟨hmk, hmd, hle, hpend, hdm, hprob, hdone⟩

end TickTickMCP

namespace TickTickMCP

/-- The cold-start state satisfies the invariant. -/
theorem inv_init (d : String) (n : Nat) : Inv d (initSys n) := by
  have hcnt : (List.replicate n CallerPC.start).countP isDisc = 0 := by
    rw [List.countP_eq_zero]
    intro a ha
    rw [(List.mem_replicate.mp ha).2]
    simp [isDisc]
  refine ⟨rfl, Or.inl rfl, ?_, ?_, ?_, ?_, ?_⟩
  · show (List.replicate n CallerPC.start).countP isDisc ≤ 1
    rw [hcnt]
    omega
  · show false = true ↔ (List.replicate n CallerPC.start).countP isDisc = 1
    rw [hcnt]
    simp
  · intro hx
    rfl
  · show (0 : Nat) = (List.replicate n CallerPC.start).countP isDisc + _
    rw [hcnt]
    rfl
  · intro r hr
    have := (List.mem_replicate.mp hr).2
    cases this

/-- Running any schedule preserves the invariant. -/
theorem inv_runSched (d : String) (s : Sys) (sched : List Nat) (h : Inv d s) :
    Inv d (runSched d s sched) := by
  induction sched generalizing s with
  | nil => exact h
  | cons j t ih =>
    rw [runSched, List.foldl_cons]
    exact ih _ (inv_step d s j h)

/-- A tick never changes how many callers there are. -/
theorem step_length (d : String) (s : Sys) (i : Nat) :
    (step d s i).callers.length = s.callers.length := by
  unfold step
  cases hpc : s.callers[i]? with
  | none => rfl
  | some pc =>
    cases pc with
    | start => cases s.mem <;> simp
    | kcRead =>
      cases s.kc
      · by_cases hp : s.pending = true <;> simp [hp]
      · simp
    | waiting => rfl
    | probeWait => simp
    | cleanupWait => simp
    | persistWait => simp [resolveWaiters]
    | done r => rfl

/-- A schedule never changes how many callers there are. -/
theorem runSched_length (d : String) (s : Sys) (sched : List Nat) :
    (runSched d s sched).callers.length = s.callers.length := by
  induction sched generalizing s with
  | nil => rfl
  | cons j t ih =>
    rw [runSched, List.foldl_cons]
    rw [show List.foldl (step d) (step d s j) t = runSched d (step d s j) t from rfl]
    rw [ih (step d s j)]
    exact step_length d s j

/-- C7: under cooperative scheduling with an atomic pending check-then-set,
any interleaving of any number of cold-start getInboxProjectId callers that
ends with every caller resolved creates exactly one sentinel probe task,
and every caller resolves to the identifier the API assigned to that
sentinel.  Spec-modelled: the implementation of getInboxProjectId is absent
from the sources; success-path scenario of spec §8. -/
theorem c7_single_flight (d : String) (n : Nat) (sched : List Nat)
    (hn : 0 < n)
    (hall : (runSched d (initSys n) sched).callers.all isDone = true) :
    (runSched d (initSys n) sched).probes = 1 ∧
    ∀ c ∈ (runSched d (initSys n) sched).callers, c = .done d := by
  obtain ⟨hmk, hmd, hle, hpend, hdm, hprob, hdone⟩ :=
    inv_runSched d (initSys n) sched (inv_init d n)
  have hcnt0 : (runSched d (initSys n) sched).callers.countP isDisc = 0 := by
    rw [List.countP_eq_zero]
    intro a ha
    have hda := List.all_eq_true.mp hall a ha
    cases a with
    | done r => simp [isDisc]
    | start => simp [isDone] at hda
    | kcRead => simp [isDone] at hda
    | waiting => simp [isDone] at hda
    | probeWait => simp [isDone] at hda
    | cleanupWait => simp [isDone] at hda
    | persistWait => simp [isDone] at hda
  have hlen : (runSched d (initSys n) sched).callers.length = n := by
    rw [runSched_length]
    exact List.length_replicate n CallerPC.start
  have hex : ∃ c, c ∈ (runSched d (initSys n) sched).callers := by
    cases hc : (runSched d (initSys n) sched).callers with
    | nil =>
      rw [hc] at hlen
      simp at hlen
      omega
    | cons a t => exact ⟨a, List.mem_cons_self a t⟩
  obtain ⟨c, hcmem⟩ := hex
  have hdc := List.all_eq_true.mp hall c hcmem
  have hsome : (runSched d (initSys n) sched).mem.isSome = true := by
    cases c with
    | done r => exact (hdone r hcmem).2
    | start => simp [isDone] at hdc
    | kcRead => simp [isDone] at hdc
    | waiting => simp [isDone] at hdc
    | probeWait => simp [isDone] at hdc
    | cleanupWait => simp [isDone] at hdc
    | persistWait => simp [isDone] at hdc
  constructor
  · rw [hprob, hcnt0, hsome]
    rfl
  · intro c' hc'
    have hdc' := List.all_eq_true.mp hall c' hc'
    cases c' with
    | done r => rw [(hdone r hc').1]
    | start => simp [isDone] at hdc'
    | kcRead => simp [isDone] at hdc'
    | waiting => simp [isDone] at hdc'
    | probeWait => simp [isDone] at hdc'
    | cleanupWait => simp [isDone] at hdc'
    | persistWait => simp [isDone] at hdc'

/-- Witness for C7 at a concrete input: two concurrent cold-start callers
under an interleaving where the second attaches to the pending discovery of
the first. -/
theorem c7_single_flight_witness :
    (runSched "inbox123" (initSys 2) [0, 0, 1, 1, 0, 0, 0]).probes = 1 ∧
    ∀ c ∈ (runSched "inbox123" (initSys 2) [0, 0, 1, 1, 0, 0, 0]).callers,
      c = .done "inbox123" :=
  c7_single_flight "inbox123" 2 [0, 0, 1, 1, 0, 0, 0] (by omega) (by rfl)

end TickTickMCP

namespace TickTickMCP

/-- Hexadecimal digits are never reserved URL characters. -/
theorem hexDigit_notReserved (n : Nat) : notReserved (hexDigit n) = true := by
  have h : n % 16 < 16 := Nat.mod_lt _ (by omega)
  unfold hexDigit
  set m := n % 16 with hm
  interval_cases m <;> rfl

/-- A character that encodeURIComponent keeps verbatim is never a reserved
URL character. -/
theorem unescaped_notReserved (c : Char) (h : uriUnescaped c = true) :
    notReserved c = true := by
  by_cases h1 : c = '/'
  · rw [h1] at h
    exact absurd h (by decide)
  by_cases h2 : c = '?'
  · rw [h2] at h
    exact absurd h (by decide)
  by_cases h3 : c = '#'
  · rw [h3] at h
    exact absurd h (by decide)
  simp [notReserved, h1, h2, h3]

/-- The encoding of one character contains no reserved URL character. -/
theorem encChar_all (c : Char) : (encChar c).all notReserved = true := by
  unfold encChar
  split
  · simp only [List.all_cons, List.all_nil, Bool.and_true]
    exact unescaped_notReserved c (by assumption)
  · rw [List.all_eq_true]
    intro x hx
    rw [List.mem_flatMap] at hx
    obtain ⟨b, _, hxb⟩ := hx
    simp only [List.mem_cons, List.not_mem_nil, or_false] at hxb
    rcases hxb with h | h | h
    · rw [h]
      rfl
    · rw [h]
      exact hexDigit_notReserved _
    · rw [h]
      exact hexDigit_notReserved _

/-- The output of encodeURIComponent contains no reserved URL character. -/
theorem encodeURIComponent_all (s : String) :
    (encodeURIComponent s).data.all notReserved = true := by
  rw [List.all_eq_true]
  intro x hx
  have hx' : x ∈ s.data.flatMap encChar := hx
  rw [List.mem_flatMap] at hx'
  obtain ⟨c, _, hxc⟩ := hx'
  exact List.all_eq_true.mp (encChar_all c) x hxc

/-- A reserved character never occurs in an encoded component. -/
theorem not_mem_encodeURIComponent (s : String) (c : Char) (hc : notReserved c = false) :
    c ∉ (encodeURIComponent s).data := by
  intro hmem
  have h := List.all_eq_true.mp (encodeURIComponent_all s) c hmem
  rw [hc] at h
  cases h

/-- No path separator occurs in an encoded component. -/
theorem count_slash_encodeURIComponent (s : String) :
    (encodeURIComponent s).data.count '/' = 0 :=
  List.count_eq_zero.mpr (not_mem_encodeURIComponent s '/' rfl)

/-- No query or fragment delimiter occurs in an encoded component. -/
theorem noQueryHash_encodeURIComponent (s : String) :
    (encodeURIComponent s).data.all (fun c => !(c == '?' || c == '#')) = true := by
  rw [List.all_eq_true]
  intro x hx
  have h := List.all_eq_true.mp (encodeURIComponent_all s) x hx
  unfold notReserved at h
  rw [Bool.not_eq_true', Bool.or_eq_false_iff, Bool.or_eq_false_iff] at h
  obtain ⟨⟨h1, h2⟩, h3⟩ := h
  simp [h2, h3]

/-- C10: the convenience wrappers build their URLs from the fixed path
templates with each identifier passed through encodeURIComponent, whose
output never contains a path separator, query delimiter or fragment
delimiter — so every wrapper URL has exactly the number of path separators
of its template and no query or fragment part, whatever the identifiers
contain. -/
theorem c10_wrappers_encode_ids (projectId taskId : String) :
    ((encodeURIComponent projectId).data.all notReserved = true) ∧
    ((encodeURIComponent taskId).data.all notReserved = true) ∧
    (getProjectDataPath projectId).data.count '/' = 3 ∧
    (getTaskPath projectId taskId).data.count '/' = 4 ∧
    (updateTaskPath taskId).data.count '/' = 2 ∧
    (completeTaskPath projectId taskId).data.count '/' = 5 ∧
    ((getProjectDataPath projectId).data.all (fun c => !(c == '?' || c == '#')) = true) ∧
    ((getTaskPath projectId taskId).data.all (fun c => !(c == '?' || c == '#')) = true) ∧
    ((updateTaskPath taskId).data.all (fun c => !(c == '?' || c == '#')) = true) ∧
    ((completeTaskPath projectId taskId).data.all (fun c => !(c == '?' || c == '#')) = true) := by
  refine ⟨encodeURIComponent_all projectId, encodeURIComponent_all taskId,
    ?_, ?_, ?_, ?_, ?_, ?_, ?_, ?_⟩
  · simp [getProjectDataPath, String.data_append, List.count_append,
      count_slash_encodeURIComponent]
  · simp [getTaskPath, String.data_append, List.count_append,
      count_slash_encodeURIComponent]
  · simp [updateTaskPath, String.data_append, List.count_append,
      count_slash_encodeURIComponent]
  · simp [completeTaskPath, String.data_append, List.count_append,
      count_slash_encodeURIComponent]
  · rw [List.all_eq_true]
    intro x hx
    rw [show (getProjectDataPath projectId).data
        = "/project/".data ++ ((encodeURIComponent projectId).data ++ "/data".data) from by
      simp [getProjectDataPath, String.data_append]] at hx
    rcases List.mem_append.mp hx with hx | hx
    · exact List.all_eq_true.mp
        (show ("/project/".data.all (fun c => !(c == '?' || c == '#'))) = true by decide) x hx
    · rcases List.mem_append.mp hx with hx | hx
      · exact List.all_eq_true.mp (noQueryHash_encodeURIComponent projectId) x hx
      · exact List.all_eq_true.mp
          (show ("/data".data.all (fun c => !(c == '?' || c == '#'))) = true by decide) x hx
  · rw [List.all_eq_true]
    intro x hx
    rw [show (getTaskPath projectId taskId).data
        = "/project/".data ++ ((encodeURIComponent projectId).data
          ++ ("/task/".data ++ (encodeURIComponent taskId).data)) from by
      simp [getTaskPath, String.data_append]] at hx
    rcases List.mem_append.mp hx with hx | hx
    · exact List.all_eq_true.mp
        (show ("/project/".data.all (fun c => !(c == '?' || c == '#'))) = true by decide) x hx
    · rcases List.mem_append.mp hx with hx | hx
      · exact List.all_eq_true.mp (noQueryHash_encodeURIComponent projectId) x hx
      · rcases List.mem_append.mp hx with hx | hx
        · exact List.all_eq_true.mp
            (show ("/task/".data.all (fun c => !(c == '?' || c == '#'))) = true by decide) x hx
        · exact List.all_eq_true.mp (noQueryHash_encodeURIComponent taskId) x hx
  · rw [List.all_eq_true]
    intro x hx
    rw [show (updateTaskPath taskId).data
        = "/task/".data ++ (encodeURIComponent taskId).data from by
      simp [updateTaskPath, String.data_append]] at hx
    rcases List.mem_append.mp hx with hx | hx
    · exact List.all_eq_true.mp
        (show ("/task/".data.all (fun c => !(c == '?' || c == '#'))) = true by decide) x hx
    · exact List.all_eq_true.mp (noQueryHash_encodeURIComponent taskId) x hx
  · rw [List.all_eq_true]
    intro x hx
    rw [show (completeTaskPath projectId taskId).data
        = "/project/".data ++ ((encodeURIComponent projectId).data
          ++ ("/task/".data ++ ((encodeURIComponent taskId).data
            ++ "/complete".data))) from by
      simp [completeTaskPath, String.data_append]] at hx
    rcases List.mem_append.mp hx with hx | hx
    · exact List.all_eq_true.mp
        (show ("/project/".data.all (fun c => !(c == '?' || c == '#'))) = true by decide) x hx
    · rcases List.mem_append.mp hx with hx | hx
      · exact List.all_eq_true.mp (noQueryHash_encodeURIComponent projectId) x hx
      · rcases List.mem_append.mp hx with hx | hx
        · exact List.all_eq_true.mp
            (show ("/task/".data.all (fun c => !(c == '?' || c == '#'))) = true by decide) x hx
        · rcases List.mem_append.mp hx with hx | hx
          · exact List.all_eq_true.mp (noQueryHash_encodeURIComponent taskId) x hx
          · exact List.all_eq_true.mp
              (show ("/complete".data.all (fun c => !(c == '?' || c == '#'))) = true by decide) x hx

end TickTickMCP
